import Mathlib

/-!
Verification of the spconv build manifest (`setup.py`).

The manifest reads the `CUMM_CUDA_VERSION` environment variable, adjusts the
release name and dependency list, reads `README.md` and `version.txt`,
assembles the kernel-parameter catalogues, constructs the code-generation
units with their namespaces, and registers them all into a single
`PCCMExtension` targeting the module `spconv/core_cc`.

We embed the manifest as a pure function from its inputs (environment value,
README contents when present, version file contents, and the eight per-tier
parameter lists imported from `spconv.core`) to either a Python-style error
or a record of everything the manifest produces.
-/

namespace Spconv

/-- An abstract kernel-parameter entry.  The per-tier parameter lists defined
in `spconv.core` are opaque to the manifest; their elements are only carried
around and concatenated, so we model an entry by an identifier. -/
abbrev KParam := Nat

/-- Python exceptions that the manifest can raise. -/
inductive PyError where
  | runtimeError (msg : String)
  | valueError (msg : String)
  | indexError
  deriving Repr, DecidableEq

/-- A code-generation unit (a `pccm.Class` instance) as constructed by the
manifest.  Each constructor mirrors one of the classes instantiated in
`setup.py`; tuner units record the unit they were constructed from, and the
composite `ConvGemmOps` records both tuner sub-units.  `ns` is the unit's
`namespace` attribute (`none` when the manifest never assigns it). -/
inductive CUnit where
  | GemmMainUnitTest (params : List KParam) (ns : Option String)
  | ConvMainUnitTest (params : List KParam) (ns : Option String)
  | GemmTunerSimple (src : CUnit) (ns : Option String)
  | ConvTunerSimple (src : CUnit) (ns : Option String)
  | ConvGemmOps (gemmtuner : CUnit) (convtuner : CUnit) (ns : Option String)
  | SpconvOps (ns : Option String)
  | BoxOps (ns : Option String)
  | HashTable (ns : Option String)
  | CompileInfo (ns : Option String)
  | ExternalAllocator (ns : Option String)
  | PointCloudCompress (ns : Option String)
  | ExternalSpconvMatmul (ns : Option String)
  | InferenceOps (ns : Option String)
  deriving Repr, DecidableEq

/-- The `unit.namespace = "..."` assignment performed by the manifest. -/
def CUnit.setNamespace : CUnit → String → CUnit
  | .GemmMainUnitTest p _, s => .GemmMainUnitTest p (some s)
  | .ConvMainUnitTest p _, s => .ConvMainUnitTest p (some s)
  | .GemmTunerSimple u _, s => .GemmTunerSimple u (some s)
  | .ConvTunerSimple u _, s => .ConvTunerSimple u (some s)
  | .ConvGemmOps g c _, s => .ConvGemmOps g c (some s)
  | .SpconvOps _, s => .SpconvOps (some s)
  | .BoxOps _, s => .BoxOps (some s)
  | .HashTable _, s => .HashTable (some s)
  | .CompileInfo _, s => .CompileInfo (some s)
  | .ExternalAllocator _, s => .ExternalAllocator (some s)
  | .PointCloudCompress _, s => .PointCloudCompress (some s)
  | .ExternalSpconvMatmul _, s => .ExternalSpconvMatmul (some s)
  | .InferenceOps _, s => .InferenceOps (some s)

/-- Read back a unit's `namespace` attribute. -/
def CUnit.getNamespace : CUnit → Option String
  | .GemmMainUnitTest _ ns => ns
  | .ConvMainUnitTest _ ns => ns
  | .GemmTunerSimple _ ns => ns
  | .ConvTunerSimple _ ns => ns
  | .ConvGemmOps _ _ ns => ns
  | .SpconvOps ns => ns
  | .BoxOps ns => ns
  | .HashTable ns => ns
  | .CompileInfo ns => ns
  | .ExternalAllocator ns => ns
  | .PointCloudCompress ns => ns
  | .ExternalSpconvMatmul ns => ns
  | .InferenceOps ns => ns

/-- The `pccm.extension.PCCMExtension` constructed by the manifest, recorded
with the arguments the manifest passes:  the unit list, the generated module
name, the source output directory, the C++ standard, and the two flags. -/
structure PCCMExtension where
  cus : List CUnit
  module_name : String
  out_dir : String
  std : String
  disable_pch : Bool
  verbose : Bool
  deriving Repr, DecidableEq

/-- The inputs of one run of the manifest: the `CUMM_CUDA_VERSION`
environment value (`""` when unset, matching `os.environ.get`'s default),
the contents of `README.md` when the file exists, the contents of
`version.txt`, and the eight per-tier kernel-parameter lists imported from
`spconv.core`. -/
structure ManifestEnv where
  CUMM_CUDA_VERSION : String
  readme : Option String
  version_txt : String
  SHUFFLE_SIMT_PARAMS : List KParam
  SHUFFLE_VOLTA_PARAMS : List KParam
  SHUFFLE_TURING_PARAMS : List KParam
  SHUFFLE_AMPERE_PARAMS : List KParam
  IMPLGEMM_SIMT_PARAMS : List KParam
  IMPLGEMM_VOLTA_PARAMS : List KParam
  IMPLGEMM_TURING_PARAMS : List KParam
  IMPLGEMM_AMPERE_PARAMS : List KParam
  deriving Repr, DecidableEq

/-- Everything a successful run of the manifest produces and hands to
`setup(...)`. -/
structure ManifestResult where
  RELEASE_NAME : String
  deps : List String
  REQUIRED : List String
  long_description : String
  version : String
  all_shuffle : List KParam
  all_imp : List KParam
  std : String
  cus : List CUnit
  ext_modules : List PCCMExtension
  deriving Repr, DecidableEq

/-- Python `s.replace(".", "")`: remove every `'.'` character. -/
def pyStripDots (s : String) : String :=
  String.mk (s.toList.filter (fun c => c ≠ '.'))

/-- Helper for `pySplitDot`: split a character list at every `'.'`,
accumulating the current component in reverse. -/
def splitDotAux : List Char → List Char → List String
  | [], acc => [String.mk acc.reverse]
  | '.' :: rest, acc => String.mk acc.reverse :: splitDotAux rest []
  | c :: rest, acc => splitDotAux rest (c :: acc)

/-- Python `s.split(".")`: split at every dot; adjacent dots and an empty
string produce empty components (`"".split(".") == [""]`). -/
def pySplitDot (s : String) : List String :=
  splitDotAux s.toList []

/-- Python `s.strip()`: drop whitespace from both ends. -/
def pyStrip (s : String) : String :=
  String.mk
    (((s.toList.dropWhile Char.isWhitespace).reverse.dropWhile Char.isWhitespace).reverse)

/-- Validity of the digit part of a Python integer literal after the first
digit: digits, with single underscores allowed only between digits. -/
def pyDigitsTail : List Char → Bool
  | [] => true
  | '_' :: rest =>
    match rest with
    | [] => false
    | c :: rest2 => c.isDigit && pyDigitsTail rest2
  | c :: rest => c.isDigit && pyDigitsTail rest

/-- Validity of the digit part of a Python integer literal: non-empty,
starts with a digit, then `pyDigitsTail`. -/
def pyDigitsOk : List Char → Bool
  | [] => false
  | c :: rest => c.isDigit && pyDigitsTail rest

/-- Numeric value of a valid digit part (underscores ignored). -/
def pyDigitsVal (cs : List Char) : Nat :=
  (cs.filter Char.isDigit).foldl (fun n c => n * 10 + (c.toNat - '0'.toNat)) 0

/-- Python `int(s)` on a string: optional surrounding whitespace, optional
sign, then a non-empty digit sequence (underscores allowed between digits).
Returns `none` where `int` raises `ValueError`. -/
def pyInt (s : String) : Option Int :=
  match (pyStrip s).toList with
  | '+' :: rest => if pyDigitsOk rest then some (Int.ofNat (pyDigitsVal rest)) else none
  | '-' :: rest => if pyDigitsOk rest then some (-(Int.ofNat (pyDigitsVal rest))) else none
  | cs => if pyDigitsOk cs then some (Int.ofNat (pyDigitsVal cs)) else none

/-- Python `tuple(map(int, s.split(".")))`: parse each dot-separated
component; raise `ValueError` at the first component `int` rejects. -/
def pyMapInt : List String → Except PyError (List Int)
  | [] => .ok []
  | s :: rest =>
    match pyInt s with
    | none => .error (.valueError ("invalid literal for int() with base 10: " ++ s))
    | some v =>
      match pyMapInt rest with
      | .error e => .error e
      | .ok vs => .ok (v :: vs)

/-- Line 95: `all_shuffle = SHUFFLE_SIMT_PARAMS + SHUFFLE_VOLTA_PARAMS +
SHUFFLE_TURING_PARAMS + SHUFFLE_AMPERE_PARAMS`. -/
def all_shuffle (e : ManifestEnv) : List KParam :=
  e.SHUFFLE_SIMT_PARAMS ++ e.SHUFFLE_VOLTA_PARAMS ++
    e.SHUFFLE_TURING_PARAMS ++ e.SHUFFLE_AMPERE_PARAMS

/-- Lines 96-97: `all_imp = IMPLGEMM_SIMT_PARAMS + IMPLGEMM_VOLTA_PARAMS +
IMPLGEMM_TURING_PARAMS + IMPLGEMM_AMPERE_PARAMS`. -/
def all_imp (e : ManifestEnv) : List KParam :=
  e.IMPLGEMM_SIMT_PARAMS ++ e.IMPLGEMM_VOLTA_PARAMS ++
    e.IMPLGEMM_TURING_PARAMS ++ e.IMPLGEMM_AMPERE_PARAMS

/-- Lines 99-100: `cu = GemmMainUnitTest(all_shuffle);
cu.namespace = "cumm.gemm.main"`. -/
def cuUnit (e : ManifestEnv) : CUnit :=
  (CUnit.GemmMainUnitTest (all_shuffle e) none).setNamespace "cumm.gemm.main"

/-- Lines 101-102: `convcu = ConvMainUnitTest(all_imp);
convcu.namespace = "cumm.conv.main"`. -/
def convcuUnit (e : ManifestEnv) : CUnit :=
  (CUnit.ConvMainUnitTest (all_imp e) none).setNamespace "cumm.conv.main"

/-- Lines 111-112: `gemmtuner = GemmTunerSimple(cu);
gemmtuner.namespace = "csrc.sparse.convops.gemmops"`. -/
def gemmtunerUnit (e : ManifestEnv) : CUnit :=
  (CUnit.GemmTunerSimple (cuUnit e) none).setNamespace "csrc.sparse.convops.gemmops"

/-- Lines 113-114: `convtuner = ConvTunerSimple(convcu);
convtuner.namespace = "csrc.sparse.convops.convops"`. -/
def convtunerUnit (e : ManifestEnv) : CUnit :=
  (CUnit.ConvTunerSimple (convcuUnit e) none).setNamespace "csrc.sparse.convops.convops"

/-- Lines 115-116: `convops = ConvGemmOps(gemmtuner, convtuner);
convops.namespace = "csrc.sparse.convops.spops"`. -/
def convopsUnit (e : ManifestEnv) : CUnit :=
  (CUnit.ConvGemmOps (gemmtunerUnit e) (convtunerUnit e) none).setNamespace
    "csrc.sparse.convops.spops"

/-- Lines 118-124: the `cus` list handed to the extension, including the
final `cus.extend([cu, convcu])`. -/
def cusList (e : ManifestEnv) : List CUnit :=
  [gemmtunerUnit e, convtunerUnit e, convopsUnit e,
   CUnit.SpconvOps none, CUnit.BoxOps none, CUnit.HashTable none,
   CUnit.CompileInfo none, CUnit.ExternalAllocator none,
   CUnit.PointCloudCompress none, CUnit.ExternalSpconvMatmul none,
   CUnit.InferenceOps none] ++ [cuUnit e, convcuUnit e]

/-- Line 34: `DESCRIPTION = 'spatial sparse convolution'`. -/
def DESCRIPTION : String := "spatial sparse convolution"

/-- Lines 55-59: the README read with its `FileNotFoundError` handler. -/
def longDescriptionOf (readme : Option String) : String :=
  match readme with
  | some contents => "\n" ++ contents
  | none => DESCRIPTION

/-- Lines 105-108: `std = "c++17"; if cuda_ver_tuple[0] < 11: std = "c++14"`,
as a function of the first parsed version component. -/
def stdOf (v0 : Int) : String :=
  if v0 < 11 then "c++14" else "c++17"

/-- The record a successful manifest run hands to `setup(...)`, as a
function of the inputs and of the first parsed version component `v0`. -/
def mkManifestResult (e : ManifestEnv) (v0 : Int) : ManifestResult :=
  let cuda_ver_str := pyStripDots e.CUMM_CUDA_VERSION
  let deps := ["cumm-cu" ++ cuda_ver_str ++ ">=0.7.11, <1.0.0"]
  { RELEASE_NAME := "spconv" ++ "-cu" ++ cuda_ver_str
    deps := deps
    REQUIRED := ["pccm>=0.4.16", "ccimport>=0.4.4", "pybind11>=2.6.0",
                 "fire", "numpy<2.0.0"] ++ deps
    long_description := longDescriptionOf e.readme
    version := pyStrip e.version_txt
    all_shuffle := all_shuffle e
    all_imp := all_imp e
    std := stdOf v0
    cus := cusList e
    ext_modules := [{
      cus := cusList e
      module_name := "spconv/core_cc"
      out_dir := "spconv"
      std := stdOf v0
      disable_pch := true
      verbose := true }] }

/-- The whole manifest, run on its inputs.  Mirrors `setup.py` top to
bottom: the `CUMM_CUDA_VERSION` emptiness check (lines 26-32) raises
`RuntimeError` before anything else is assembled; the version-tuple parse
(line 106) raises `ValueError` before the extension is constructed;
otherwise every value handed to `setup(...)` is collected in the result. -/
def runManifest (e : ManifestEnv) : Except PyError ManifestResult :=
  if e.CUMM_CUDA_VERSION = "" then
    .error (.runtimeError "CUMM_CUDA_VERSION must be set. e.g. export CUMM_CUDA_VERSION=11.8")
  else
    match pyMapInt (pySplitDot e.CUMM_CUDA_VERSION) with
    | .error err => .error err
    | .ok [] => .error .indexError
    | .ok (v0 :: _) => .ok (mkManifestResult e v0)

/-- Any successful run is `mkManifestResult` at the parsed first version
component, and the version string was non-empty and parsed. -/
lemma runManifest_ok_elim {e : ManifestEnv} {r : ManifestResult}
    (h : runManifest e = .ok r) :
    e.CUMM_CUDA_VERSION ≠ "" ∧
    ∃ v0 vs, pyMapInt (pySplitDot e.CUMM_CUDA_VERSION) = .ok (v0 :: vs) ∧
      r = mkManifestResult e v0 := by
  unfold runManifest at h
  split at h
  · exact absurd h (by simp)
  · rename_i hne
    refine ⟨hne, ?_⟩
    cases hp : pyMapInt (pySplitDot e.CUMM_CUDA_VERSION) with
    | error err => rw [hp] at h; exact absurd h (by simp)
    | ok tup =>
      rw [hp] at h
      cases tup with
      | nil => exact absurd h (by simp)
      | cons v0 vs =>
        simp only [Except.ok.injEq] at h
        exact ⟨v0, vs, rfl, h.symm⟩

/-- A concrete sample input used to witness the claim theorems: CUDA
version `"11.8"`, no README, and small distinct per-tier parameter lists. -/
def sampleEnv : ManifestEnv :=
  { CUMM_CUDA_VERSION := "11.8"
    readme := none
    version_txt := "2.3.8\n"
    SHUFFLE_SIMT_PARAMS := [0, 1]
    SHUFFLE_VOLTA_PARAMS := [2]
    SHUFFLE_TURING_PARAMS := [3]
    SHUFFLE_AMPERE_PARAMS := [4, 5]
    IMPLGEMM_SIMT_PARAMS := [10]
    IMPLGEMM_VOLTA_PARAMS := [11]
    IMPLGEMM_TURING_PARAMS := [12]
    IMPLGEMM_AMPERE_PARAMS := [13] }

/-- An empty-version variant of the sample input, for the error claims. -/
def sampleEnvUnset : ManifestEnv :=
  { sampleEnv with CUMM_CUDA_VERSION := "" }

/-- A variant of the sample input whose version string does not parse. -/
def sampleEnvBad : ManifestEnv :=
  { sampleEnv with CUMM_CUDA_VERSION := "cuda" }

/-- A variant of the sample input with a README present. -/
def sampleEnvReadme : ManifestEnv :=
  { sampleEnv with readme := some "hello" }

/-- Modelled from the spec: pccm's composition engine (the `register` /
`resolve` operations consumed through `PCCMExtension`) is not part of
`src/`; only the manifest that feeds it is.  Following §3 of the spec, a
registered Unit is `{namespace, provided_symbols, dependencies}` (the
generated-source blob is opaque and irrelevant to resolution).  Dependency
references are indices into the registration list. -/
structure GUnit where
  ns : String
  provided : List String
  deps : List Nat
  deriving Repr, DecidableEq, Inhabited

/-- Dependencies of the unit registered at index `x` (no unit means no
dependencies). -/
def depsOf (us : List GUnit) (x : Nat) : List Nat :=
  (us.getD x default).deps

/-- Modelled from the spec: a dependency cycle — a non-empty list of unit
indices each depending on the next, wrapping around. -/
def IsCycle (us : List GUnit) : List Nat → Prop
  | [] => False
  | x :: rest => List.Chain (fun a b => b ∈ depsOf us a) x (rest ++ [x])

/-- No dependency cycle among the registered units. -/
def Acyclic (us : List GUnit) : Prop :=
  ¬ ∃ l, IsCycle us l

/-- Modelled from the spec: every `(namespace, symbol)` pair contributed by
the registered units, in registration order — the pairs the
duplicate-definition invariant quantifies over. -/
def symbolPairs (us : List GUnit) : List (String × String) :=
  us.flatMap (fun u => u.provided.map (fun s => (u.ns, s)))

/-- Some `(namespace, symbol)` pair occurs twice. -/
def hasDuplicate : List (String × String) → Bool
  | [] => false
  | p :: rest => decide (p ∈ rest) || hasDuplicate rest

/-- Resolution errors of the composition engine (§7 of the spec). -/
inductive ResolveError where
  | duplicateSymbolError
  | cyclicDependencyError
  deriving Repr, DecidableEq

/-- A pending unit is ready once all its dependencies are emitted. -/
def ready (us : List GUnit) (emitted : List Nat) (x : Nat) : Bool :=
  (depsOf us x).all (fun d => decide (d ∈ emitted))

/-- Modelled from the spec: Kahn-style topological resolution.  Repeatedly
emit the first pending unit whose dependencies are all emitted; if pending
units remain but none is ready, the dependency graph has a cycle and
resolution fails with `CyclicDependencyError`. -/
def kahnAux (us : List GUnit) : Nat → List Nat → List Nat →
    Except ResolveError (List Nat)
  | _, emitted, [] => .ok emitted
  | 0, _, _ :: _ => .error .cyclicDependencyError
  | fuel + 1, emitted, p :: ps =>
    match (p :: ps).find? (ready us emitted) with
    | some x => kahnAux us fuel (emitted ++ [x]) ((p :: ps).erase x)
    | none => .error .cyclicDependencyError

/-- Modelled from the spec: `resolve()` — fail with `DuplicateSymbolError`
when two units contribute the same `(namespace, symbol)` pair, otherwise
topologically sort the registered units by their dependency edges. -/
def resolve (us : List GUnit) : Except ResolveError (List Nat) :=
  if hasDuplicate (symbolPairs us) then .error .duplicateSymbolError
  else kahnAux us us.length [] (List.range us.length)

/-- The build order respects every dependency edge: reading the order left
to right, each unit's dependencies are among the units already seen. -/
def depsSeen (us : List GUnit) (seen : List Nat) : List Nat → Prop
  | [] => True
  | x :: rest => (∀ d ∈ depsOf us x, d ∈ seen) ∧ depsSeen us (x :: seen) rest

/-- A choice of one in-`S` dependency for a unit (used to extract a cycle
from a stuck resolution state). -/
def pickDep (us : List GUnit) (S : List Nat) (x : Nat) : Nat :=
  match (depsOf us x).filter (fun d => decide (d ∈ S)) with
  | [] => x
  | d :: _ => d

/-- Modelled from the spec: the manifest's registered unit set, in the
registration order of `cusList`, with the dependency edges of the claim —
each tuner depends on its kernel main unit and `ConvGemmOps` depends on
both tuners.  Namespaces are the five assigned in `setup.py`; units whose
namespaces and symbols `setup.py` does not assign get their class name as
namespace and a single class-named symbol (per the spec any distinct
choice is equivalent for duplicate detection). -/
def manifestGUnits : List GUnit :=
  [{ ns := "csrc.sparse.convops.gemmops", provided := ["GemmTunerSimple"], deps := [11] },
   { ns := "csrc.sparse.convops.convops", provided := ["ConvTunerSimple"], deps := [12] },
   { ns := "csrc.sparse.convops.spops", provided := ["ConvGemmOps"], deps := [0, 1] },
   { ns := "SpconvOps", provided := ["SpconvOps"], deps := [] },
   { ns := "BoxOps", provided := ["BoxOps"], deps := [] },
   { ns := "HashTable", provided := ["HashTable"], deps := [] },
   { ns := "CompileInfo", provided := ["CompileInfo"], deps := [] },
   { ns := "ExternalAllocator", provided := ["ExternalAllocator"], deps := [] },
   { ns := "PointCloudCompress", provided := ["PointCloudCompress"], deps := [] },
   { ns := "ExternalSpconvMatmul", provided := ["ExternalSpconvMatmul"], deps := [] },
   { ns := "InferenceOps", provided := ["InferenceOps"], deps := [] },
   { ns := "cumm.gemm.main", provided := ["GemmMainUnitTest"], deps := [] },
   { ns := "cumm.conv.main", provided := ["ConvMainUnitTest"], deps := [] }]

/-- The build order `resolve` produces on the manifest's unit set. -/
def manifestOrder : List Nat :=
  [3, 4, 5, 6, 7, 8, 9, 10, 11, 0, 12, 1, 2]

/-- A rank witnessing acyclicity of the manifest's dependency graph:
kernel main units at rank 0, tuners at rank 1, the composite at rank 2. -/
def manifestRank (x : Nat) : Nat :=
  if x = 2 then 2 else if x = 0 ∨ x = 1 then 1 else 0

/-- A two-unit set mirroring the spec's §8 example: `ns.a` provides `foo`
with no dependencies, `ns.b` provides `bar` and depends on it. -/
def wUnits : List GUnit :=
  [{ ns := "ns.a", provided := ["foo"], deps := [] },
   { ns := "ns.b", provided := ["bar"], deps := [0] }]

example : resolve manifestGUnits = .ok manifestOrder := rfl
example : resolve wUnits = .ok [0, 1] := rfl
example : hasDuplicate (symbolPairs manifestGUnits) = false := rfl
example : (symbolPairs manifestGUnits).Nodup := by decide
example : depsSeen manifestGUnits [] manifestOrder := by
  simp [depsSeen, depsOf, manifestGUnits, manifestOrder]

example : pyInt "11" = some 11 := rfl
example : pyInt "8" = some 8 := rfl
example : pySplitDot "11.8" = ["11", "8"] := rfl
example : pyMapInt (pySplitDot "11.8") = .ok [11, 8] := rfl
example : runManifest sampleEnv = .ok (mkManifestResult sampleEnv 11) := rfl
example : pyStripDots "11.8" = "118" := rfl
example : pyInt "" = none := rfl
example : pyInt "1_0" = some 10 := rfl
example : pyInt " -5 " = some (-5) := rfl
example : pyInt "8a" = none := rfl

/-- C1: the shuffle (GEMM) catalogue handed to the build is exactly
`SHUFFLE_SIMT_PARAMS ++ SHUFFLE_VOLTA_PARAMS ++ SHUFFLE_TURING_PARAMS ++
SHUFFLE_AMPERE_PARAMS`, and the implicit-GEMM (Conv) catalogue is exactly
`IMPLGEMM_SIMT_PARAMS ++ IMPLGEMM_VOLTA_PARAMS ++ IMPLGEMM_TURING_PARAMS ++
IMPLGEMM_AMPERE_PARAMS`: list equality means no element is dropped, added,
or reordered, so first-registered order is preserved. -/
theorem catalogue_is_tier_concatenation (e : ManifestEnv) (r : ManifestResult)
    (h : runManifest e = .ok r) :
    r.all_shuffle = e.SHUFFLE_SIMT_PARAMS ++ e.SHUFFLE_VOLTA_PARAMS ++
        e.SHUFFLE_TURING_PARAMS ++ e.SHUFFLE_AMPERE_PARAMS ∧
    r.all_imp = e.IMPLGEMM_SIMT_PARAMS ++ e.IMPLGEMM_VOLTA_PARAMS ++
        e.IMPLGEMM_TURING_PARAMS ++ e.IMPLGEMM_AMPERE_PARAMS := by
  obtain ⟨-, v0, vs, -, rfl⟩ := runManifest_ok_elim h
  exact ⟨rfl, rfl⟩

/-- Witness for C1 at the concrete sample input. -/
theorem catalogue_is_tier_concatenation_witness :
    (mkManifestResult sampleEnv 11).all_shuffle =
      sampleEnv.SHUFFLE_SIMT_PARAMS ++ sampleEnv.SHUFFLE_VOLTA_PARAMS ++
        sampleEnv.SHUFFLE_TURING_PARAMS ++ sampleEnv.SHUFFLE_AMPERE_PARAMS ∧
    (mkManifestResult sampleEnv 11).all_imp =
      sampleEnv.IMPLGEMM_SIMT_PARAMS ++ sampleEnv.IMPLGEMM_VOLTA_PARAMS ++
        sampleEnv.IMPLGEMM_TURING_PARAMS ++ sampleEnv.IMPLGEMM_AMPERE_PARAMS :=
  catalogue_is_tier_concatenation sampleEnv (mkManifestResult sampleEnv 11) rfl

/-- C2: with `CUMM_CUDA_VERSION` unset or empty the manifest fails with the
`RuntimeError` of line 32, and no manifest product (catalogue, units,
extension) exists: no run result is ever produced. -/
theorem empty_cuda_version_raises (e : ManifestEnv)
    (h : e.CUMM_CUDA_VERSION = "") :
    runManifest e = .error (.runtimeError
      "CUMM_CUDA_VERSION must be set. e.g. export CUMM_CUDA_VERSION=11.8") ∧
    ∀ r : ManifestResult, runManifest e ≠ .ok r := by
  have h1 : runManifest e = .error (.runtimeError
      "CUMM_CUDA_VERSION must be set. e.g. export CUMM_CUDA_VERSION=11.8") := by
    unfold runManifest
    rw [if_pos h]
  refine ⟨h1, fun r hr => ?_⟩
  rw [h1] at hr
  exact Except.noConfusion hr

/-- Witness for C2 at the concrete sample input with the variable unset. -/
theorem empty_cuda_version_raises_witness :
    runManifest sampleEnvUnset = .error (.runtimeError
      "CUMM_CUDA_VERSION must be set. e.g. export CUMM_CUDA_VERSION=11.8") ∧
    ∀ r : ManifestResult, runManifest sampleEnvUnset ≠ .ok r :=
  empty_cuda_version_raises sampleEnvUnset rfl

/-- C3: every successful run creates exactly one extension, named
`spconv/core_cc`, whose unit list is exactly the thirteen registered units
in their registration order, and no unit sits in a second extension because
the extension list is a singleton. -/
theorem single_extension_thirteen_units (e : ManifestEnv) (r : ManifestResult)
    (h : runManifest e = .ok r) :
    ∃ ext : PCCMExtension,
      r.ext_modules = [ext] ∧
      ext.module_name = "spconv/core_cc" ∧
      ext.cus = r.cus ∧
      r.cus = [gemmtunerUnit e, convtunerUnit e, convopsUnit e,
               CUnit.SpconvOps none, CUnit.BoxOps none, CUnit.HashTable none,
               CUnit.CompileInfo none, CUnit.ExternalAllocator none,
               CUnit.PointCloudCompress none, CUnit.ExternalSpconvMatmul none,
               CUnit.InferenceOps none, cuUnit e, convcuUnit e] ∧
      r.cus.length = 13 := by
  obtain ⟨-, v0, vs, -, rfl⟩ := runManifest_ok_elim h
  exact ⟨_, rfl, rfl, rfl, rfl, rfl⟩

/-- Witness for C3 at the concrete sample input. -/
theorem single_extension_thirteen_units_witness :
    ∃ ext : PCCMExtension,
      (mkManifestResult sampleEnv 11).ext_modules = [ext] ∧
      ext.module_name = "spconv/core_cc" ∧
      ext.cus = (mkManifestResult sampleEnv 11).cus ∧
      (mkManifestResult sampleEnv 11).cus =
        [gemmtunerUnit sampleEnv, convtunerUnit sampleEnv, convopsUnit sampleEnv,
         CUnit.SpconvOps none, CUnit.BoxOps none, CUnit.HashTable none,
         CUnit.CompileInfo none, CUnit.ExternalAllocator none,
         CUnit.PointCloudCompress none, CUnit.ExternalSpconvMatmul none,
         CUnit.InferenceOps none, cuUnit sampleEnv, convcuUnit sampleEnv] ∧
      (mkManifestResult sampleEnv 11).cus.length = 13 :=
  single_extension_thirteen_units sampleEnv (mkManifestResult sampleEnv 11) rfl

/-- C4: build composition is deterministic.  Two runs with the same
`CUMM_CUDA_VERSION`, the same `version.txt` contents and the same imported
parameter lists construct the same unit list in the same order, pick the
same C++ standard and version, hand the same unit lists to their extensions,
and assign the units the five fixed namespace strings. -/
theorem composition_deterministic (e₁ e₂ : ManifestEnv) (r₁ r₂ : ManifestResult)
    (hv : e₁.CUMM_CUDA_VERSION = e₂.CUMM_CUDA_VERSION)
    (ht : e₁.version_txt = e₂.version_txt)
    (hp1 : e₁.SHUFFLE_SIMT_PARAMS = e₂.SHUFFLE_SIMT_PARAMS)
    (hp2 : e₁.SHUFFLE_VOLTA_PARAMS = e₂.SHUFFLE_VOLTA_PARAMS)
    (hp3 : e₁.SHUFFLE_TURING_PARAMS = e₂.SHUFFLE_TURING_PARAMS)
    (hp4 : e₁.SHUFFLE_AMPERE_PARAMS = e₂.SHUFFLE_AMPERE_PARAMS)
    (hp5 : e₁.IMPLGEMM_SIMT_PARAMS = e₂.IMPLGEMM_SIMT_PARAMS)
    (hp6 : e₁.IMPLGEMM_VOLTA_PARAMS = e₂.IMPLGEMM_VOLTA_PARAMS)
    (hp7 : e₁.IMPLGEMM_TURING_PARAMS = e₂.IMPLGEMM_TURING_PARAMS)
    (hp8 : e₁.IMPLGEMM_AMPERE_PARAMS = e₂.IMPLGEMM_AMPERE_PARAMS)
    (h₁ : runManifest e₁ = .ok r₁) (h₂ : runManifest e₂ = .ok r₂) :
    r₁.cus = r₂.cus ∧
    r₁.version = r₂.version ∧
    r₁.std = r₂.std ∧
    r₁.ext_modules.map PCCMExtension.cus = r₂.ext_modules.map PCCMExtension.cus ∧
    r₁.cus.map CUnit.getNamespace =
      [some "csrc.sparse.convops.gemmops", some "csrc.sparse.convops.convops",
       some "csrc.sparse.convops.spops", none, none, none, none, none, none,
       none, none, some "cumm.gemm.main", some "cumm.conv.main"] := by
  obtain ⟨-, v0, vs, hq1, rfl⟩ := runManifest_ok_elim h₁
  obtain ⟨-, w0, ws, hq2, rfl⟩ := runManifest_ok_elim h₂
  have hcus : cusList e₁ = cusList e₂ := by
    simp only [cusList, gemmtunerUnit, convtunerUnit, convopsUnit, cuUnit,
      convcuUnit, all_shuffle, all_imp, hp1, hp2, hp3, hp4, hp5, hp6, hp7, hp8]
  have hv0 : v0 = w0 := by
    rw [hv] at hq1
    rw [hq1] at hq2
    injection hq2 with hq2
    injection hq2
  refine ⟨?_, ?_, ?_, ?_, rfl⟩
  · simpa only [mkManifestResult] using hcus
  · simp only [mkManifestResult]
    rw [ht]
  · simp only [mkManifestResult]
    rw [hv0]
  · simp only [mkManifestResult, List.map]
    rw [hcus]

/-- Witness for C4: two runs at the same concrete sample input. -/
theorem composition_deterministic_witness :
    (mkManifestResult sampleEnv 11).cus = (mkManifestResult sampleEnv 11).cus ∧
    (mkManifestResult sampleEnv 11).version = (mkManifestResult sampleEnv 11).version ∧
    (mkManifestResult sampleEnv 11).std = (mkManifestResult sampleEnv 11).std ∧
    (mkManifestResult sampleEnv 11).ext_modules.map PCCMExtension.cus =
      (mkManifestResult sampleEnv 11).ext_modules.map PCCMExtension.cus ∧
    (mkManifestResult sampleEnv 11).cus.map CUnit.getNamespace =
      [some "csrc.sparse.convops.gemmops", some "csrc.sparse.convops.convops",
       some "csrc.sparse.convops.spops", none, none, none, none, none, none,
       none, none, some "cumm.gemm.main", some "cumm.conv.main"] :=
  composition_deterministic sampleEnv sampleEnv
    (mkManifestResult sampleEnv 11) (mkManifestResult sampleEnv 11)
    rfl rfl rfl rfl rfl rfl rfl rfl rfl rfl rfl rfl

/-- C5: the GEMM tuner unit is `GemmTunerSimple` applied to the kernel main
unit `cu`, which holds the complete shuffle catalogue, and the Conv tuner
unit is `ConvTunerSimple` applied to `convcu`, which holds the complete
implicit-GEMM catalogue; both sit in the built unit list. -/
theorem tuners_built_from_full_catalogue (e : ManifestEnv) (r : ManifestResult)
    (h : runManifest e = .ok r) :
    r.cus[0]? = some (CUnit.GemmTunerSimple (cuUnit e)
      (some "csrc.sparse.convops.gemmops")) ∧
    r.cus[1]? = some (CUnit.ConvTunerSimple (convcuUnit e)
      (some "csrc.sparse.convops.convops")) ∧
    cuUnit e = CUnit.GemmMainUnitTest (all_shuffle e) (some "cumm.gemm.main") ∧
    convcuUnit e = CUnit.ConvMainUnitTest (all_imp e) (some "cumm.conv.main") ∧
    all_shuffle e = e.SHUFFLE_SIMT_PARAMS ++ e.SHUFFLE_VOLTA_PARAMS ++
      e.SHUFFLE_TURING_PARAMS ++ e.SHUFFLE_AMPERE_PARAMS ∧
    all_imp e = e.IMPLGEMM_SIMT_PARAMS ++ e.IMPLGEMM_VOLTA_PARAMS ++
      e.IMPLGEMM_TURING_PARAMS ++ e.IMPLGEMM_AMPERE_PARAMS := by
  obtain ⟨-, v0, vs, -, rfl⟩ := runManifest_ok_elim h
  exact ⟨rfl, rfl, rfl, rfl, rfl, rfl⟩

/-- Witness for C5 at the concrete sample input. -/
theorem tuners_built_from_full_catalogue_witness :
    (mkManifestResult sampleEnv 11).cus[0]? =
      some (CUnit.GemmTunerSimple (cuUnit sampleEnv)
        (some "csrc.sparse.convops.gemmops")) ∧
    (mkManifestResult sampleEnv 11).cus[1]? =
      some (CUnit.ConvTunerSimple (convcuUnit sampleEnv)
        (some "csrc.sparse.convops.convops")) ∧
    cuUnit sampleEnv = CUnit.GemmMainUnitTest (all_shuffle sampleEnv)
      (some "cumm.gemm.main") ∧
    convcuUnit sampleEnv = CUnit.ConvMainUnitTest (all_imp sampleEnv)
      (some "cumm.conv.main") ∧
    all_shuffle sampleEnv = sampleEnv.SHUFFLE_SIMT_PARAMS ++
      sampleEnv.SHUFFLE_VOLTA_PARAMS ++ sampleEnv.SHUFFLE_TURING_PARAMS ++
      sampleEnv.SHUFFLE_AMPERE_PARAMS ∧
    all_imp sampleEnv = sampleEnv.IMPLGEMM_SIMT_PARAMS ++
      sampleEnv.IMPLGEMM_VOLTA_PARAMS ++ sampleEnv.IMPLGEMM_TURING_PARAMS ++
      sampleEnv.IMPLGEMM_AMPERE_PARAMS :=
  tuners_built_from_full_catalogue sampleEnv (mkManifestResult sampleEnv 11) rfl

/-- C6: the composite `ConvGemmOps` unit combines the two tuner units and
carries the namespace `csrc.sparse.convops.spops`; this namespace extends
the scope `csrc.sparse.convops` shared with its constituents' namespaces
(each is that scope followed by a suffix), and the assignment is the same
constant on every run. -/
theorem convops_namespace_scoped (e : ManifestEnv) (r : ManifestResult)
    (h : runManifest e = .ok r) :
    r.cus[2]? = some (CUnit.ConvGemmOps (gemmtunerUnit e) (convtunerUnit e)
      (some "csrc.sparse.convops.spops")) ∧
    (gemmtunerUnit e).getNamespace = some "csrc.sparse.convops.gemmops" ∧
    (convtunerUnit e).getNamespace = some "csrc.sparse.convops.convops" ∧
    (∃ suffix, "csrc.sparse.convops.spops" = "csrc.sparse.convops" ++ suffix) ∧
    (∃ suffix, "csrc.sparse.convops.gemmops" = "csrc.sparse.convops" ++ suffix) ∧
    (∃ suffix, "csrc.sparse.convops.convops" = "csrc.sparse.convops" ++ suffix) ∧
    ∀ e' : ManifestEnv,
      (convopsUnit e').getNamespace = some "csrc.sparse.convops.spops" := by
  obtain ⟨-, v0, vs, -, rfl⟩ := runManifest_ok_elim h
  exact ⟨rfl, rfl, rfl, ⟨".spops", rfl⟩, ⟨".gemmops", rfl⟩, ⟨".convops", rfl⟩,
    fun _ => rfl⟩

/-- Witness for C6 at the concrete sample input. -/
theorem convops_namespace_scoped_witness :
    (mkManifestResult sampleEnv 11).cus[2]? =
      some (CUnit.ConvGemmOps (gemmtunerUnit sampleEnv) (convtunerUnit sampleEnv)
        (some "csrc.sparse.convops.spops")) ∧
    (gemmtunerUnit sampleEnv).getNamespace = some "csrc.sparse.convops.gemmops" ∧
    (convtunerUnit sampleEnv).getNamespace = some "csrc.sparse.convops.convops" ∧
    (∃ suffix, "csrc.sparse.convops.spops" = "csrc.sparse.convops" ++ suffix) ∧
    (∃ suffix, "csrc.sparse.convops.gemmops" = "csrc.sparse.convops" ++ suffix) ∧
    (∃ suffix, "csrc.sparse.convops.convops" = "csrc.sparse.convops" ++ suffix) ∧
    ∀ e' : ManifestEnv,
      (convopsUnit e').getNamespace = some "csrc.sparse.convops.spops" :=
  convops_namespace_scoped sampleEnv (mkManifestResult sampleEnv 11) rfl

/-- C8: the release name is `spconv-cu` followed by the version with every
dot removed, and the dependency list replaces the bare `cumm` requirement
with exactly the pinned `cumm-cu...` requirement; `REQUIRED` ends with that
single entry. -/
theorem release_name_and_deps (e : ManifestEnv) (r : ManifestResult)
    (h : runManifest e = .ok r) :
    e.CUMM_CUDA_VERSION ≠ "" ∧
    r.RELEASE_NAME = "spconv-cu" ++ pyStripDots e.CUMM_CUDA_VERSION ∧
    r.deps = ["cumm-cu" ++ pyStripDots e.CUMM_CUDA_VERSION ++ ">=0.7.11, <1.0.0"] ∧
    r.REQUIRED = ["pccm>=0.4.16", "ccimport>=0.4.4", "pybind11>=2.6.0", "fire",
                  "numpy<2.0.0"] ++ r.deps ∧
    (pyStripDots e.CUMM_CUDA_VERSION).toList =
      e.CUMM_CUDA_VERSION.toList.filter (fun c => c ≠ '.') := by
  obtain ⟨hne, v0, vs, -, rfl⟩ := runManifest_ok_elim h
  exact ⟨hne, rfl, rfl, rfl, rfl⟩

/-- Witness for C8 at the concrete sample input: version `11.8` yields
release name `spconv-cu118`. -/
theorem release_name_and_deps_witness :
    (sampleEnv.CUMM_CUDA_VERSION ≠ "" ∧
     (mkManifestResult sampleEnv 11).RELEASE_NAME =
       "spconv-cu" ++ pyStripDots sampleEnv.CUMM_CUDA_VERSION ∧
     (mkManifestResult sampleEnv 11).deps =
       ["cumm-cu" ++ pyStripDots sampleEnv.CUMM_CUDA_VERSION ++ ">=0.7.11, <1.0.0"] ∧
     (mkManifestResult sampleEnv 11).REQUIRED =
       ["pccm>=0.4.16", "ccimport>=0.4.4", "pybind11>=2.6.0", "fire",
        "numpy<2.0.0"] ++ (mkManifestResult sampleEnv 11).deps ∧
     (pyStripDots sampleEnv.CUMM_CUDA_VERSION).toList =
       sampleEnv.CUMM_CUDA_VERSION.toList.filter (fun c => c ≠ '.')) ∧
    (mkManifestResult sampleEnv 11).RELEASE_NAME = "spconv-cu118" :=
  ⟨release_name_and_deps sampleEnv (mkManifestResult sampleEnv 11) rfl, rfl⟩

/-- A component that `int` rejects drives `pyMapInt` to a `ValueError`. -/
lemma pyMapInt_error_of_bad (l : List String)
    (hbad : ∃ s ∈ l, pyInt s = none) :
    ∃ msg, pyMapInt l = .error (.valueError msg) := by
  induction l with
  | nil =>
    obtain ⟨s, hs, -⟩ := hbad
    exact absurd hs (List.not_mem_nil s)
  | cons a rest ih =>
    obtain ⟨s, hs, hnone⟩ := hbad
    cases ha : pyInt a with
    | none =>
      exact ⟨"invalid literal for int() with base 10: " ++ a,
        by simp [pyMapInt, ha]⟩
    | some v =>
      have hmem : s ∈ rest := by
        cases hs with
        | head => rw [ha] at hnone; exact absurd hnone (by simp)
        | tail _ hm => exact hm
      obtain ⟨msg, hmsg⟩ := ih ⟨s, hmem, hnone⟩
      exact ⟨msg, by simp [pyMapInt, ha, hmsg]⟩

/-- C9: in every successful run the C++ standard is `c++14` exactly when
the first parsed component of `CUMM_CUDA_VERSION` is below 11 and `c++17`
otherwise, and it is the standard handed to every extension; when the
version string is non-empty but some dot-separated component is not a
parseable integer, the run raises `ValueError` and no extension (no run
product at all) is constructed. -/
theorem cpp_std_selection (e : ManifestEnv) :
    (∀ (r : ManifestResult) (v0 : Int) (vs : List Int),
      runManifest e = .ok r →
      pyMapInt (pySplitDot e.CUMM_CUDA_VERSION) = .ok (v0 :: vs) →
      r.std = (if v0 < 11 then "c++14" else "c++17") ∧
      ∀ ext ∈ r.ext_modules, ext.std = r.std) ∧
    (e.CUMM_CUDA_VERSION ≠ "" →
      (∃ s ∈ pySplitDot e.CUMM_CUDA_VERSION, pyInt s = none) →
      (∃ msg, runManifest e = .error (.valueError msg)) ∧
      ∀ r : ManifestResult, runManifest e ≠ .ok r) := by
  constructor
  · intro r v0 vs hok hparse
    obtain ⟨-, w0, ws, hq, rfl⟩ := runManifest_ok_elim hok
    rw [hparse] at hq
    injection hq with hq
    injection hq with hq1 hq2
    subst hq1
    refine ⟨rfl, ?_⟩
    intro ext hext
    simp only [mkManifestResult, List.mem_singleton] at hext
    subst hext
    rfl
  · intro hne hbad
    obtain ⟨msg, hmsg⟩ := pyMapInt_error_of_bad _ hbad
    have herr : runManifest e = .error (.valueError msg) := by
      unfold runManifest
      rw [if_neg hne, hmsg]
    exact ⟨⟨msg, herr⟩, fun r hr => by
      rw [herr] at hr; exact Except.noConfusion hr⟩

/-- Witness for C9: version `11.8` gives `c++17` in the sample run, and the
unparseable version `cuda` raises `ValueError`. -/
theorem cpp_std_selection_witness :
    ((mkManifestResult sampleEnv 11).std =
       (if (11 : Int) < 11 then "c++14" else "c++17") ∧
     ∀ ext ∈ (mkManifestResult sampleEnv 11).ext_modules,
       ext.std = (mkManifestResult sampleEnv 11).std) ∧
    ((∃ msg, runManifest sampleEnvBad = .error (.valueError msg)) ∧
     ∀ r : ManifestResult, runManifest sampleEnvBad ≠ .ok r) :=
  ⟨(cpp_std_selection sampleEnv).1 (mkManifestResult sampleEnv 11) 11 [8] rfl rfl,
   (cpp_std_selection sampleEnvBad).2 (by decide) ⟨"cuda", by decide, rfl⟩⟩

/-- C10: a missing `README.md` is recovered, never propagated: the long
description falls back to the short description `spatial sparse
convolution` and the run succeeds exactly as it would with a README; with a
README present the long description is a newline followed by its full
contents. -/
theorem readme_fallback (e : ManifestEnv) (s : String) :
    (∀ r : ManifestResult, e.readme = none → runManifest e = .ok r →
      r.long_description = "spatial sparse convolution") ∧
    (∀ r : ManifestResult, e.readme = some s → runManifest e = .ok r →
      r.long_description = "\n" ++ s) ∧
    ((∃ r, runManifest { e with readme := none } = .ok r) ↔
     (∃ r, runManifest { e with readme := some s } = .ok r)) := by
  refine ⟨?_, ?_, ?_⟩
  · intro r hn hok
    obtain ⟨-, v0, vs, -, rfl⟩ := runManifest_ok_elim hok
    simp [mkManifestResult, longDescriptionOf, hn, DESCRIPTION]
  · intro r hs hok
    obtain ⟨-, v0, vs, -, rfl⟩ := runManifest_ok_elim hok
    simp [mkManifestResult, longDescriptionOf, hs]
  · by_cases hc : e.CUMM_CUDA_VERSION = ""
    · simp [runManifest, hc]
    · cases hp : pyMapInt (pySplitDot e.CUMM_CUDA_VERSION) with
      | error err => simp [runManifest, hc, hp]
      | ok l =>
        cases l with
        | nil => simp [runManifest, hc, hp]
        | cons v0 vs => simp [runManifest, hc, hp]

/-- Witness for C10: the sample run without a README falls back to the
short description; the same run with `README.md` containing `hello` gets a
newline plus that text. -/
theorem readme_fallback_witness :
    (mkManifestResult sampleEnv 11).long_description =
      "spatial sparse convolution" ∧
    (mkManifestResult sampleEnvReadme 11).long_description = "\n" ++ "hello" :=
  ⟨(readme_fallback sampleEnv "x").1 (mkManifestResult sampleEnv 11) rfl rfl,
   (readme_fallback sampleEnvReadme "hello").2.1
     (mkManifestResult sampleEnvReadme 11) rfl rfl⟩

/-- Units out of range have no dependencies. -/
lemma depsOf_eq_nil_of_le (us : List GUnit) (x : Nat) (hx : us.length ≤ x) :
    depsOf us x = [] := by
  unfold depsOf
  rw [List.getD_eq_default us default hx]
  rfl

/-- Under the closure invariant every dependency is in range. -/
lemma depsOf_lt_of_closed (us : List GUnit)
    (hclosed : ∀ u ∈ us, ∀ d ∈ u.deps, d < us.length)
    {x d : Nat} (hd : d ∈ depsOf us x) : d < us.length := by
  by_cases hx : x < us.length
  · have hmem : us.getD x default ∈ us := by
      rw [List.getD_eq_getElem us default hx]
      exact List.getElem_mem hx
    exact hclosed _ hmem d hd
  · rw [depsOf_eq_nil_of_le us x (by omega)] at hd
    exact absurd hd (List.not_mem_nil d)

/-- Along a dependency chain a rank that strictly drops on every edge
strictly drops from the head to the last element. -/
lemma rank_lt_of_chain (us : List GUnit) (rank : Nat → Nat)
    (h : ∀ x, x < us.length → ∀ d ∈ depsOf us x, rank d < rank x) :
    ∀ (l : List Nat) (a b : Nat),
      List.Chain (fun u v => v ∈ depsOf us u) a l → l.getLast? = some b →
      rank b < rank a := by
  intro l
  induction l with
  | nil =>
    intro a b _ hb
    simp at hb
  | cons c l' ih =>
    intro a b hc hb
    have hedge : c ∈ depsOf us a := (List.chain_cons.mp hc).1
    have hchain := (List.chain_cons.mp hc).2
    have ha : a < us.length := by
      by_contra hna
      rw [depsOf_eq_nil_of_le us a (by omega)] at hedge
      exact absurd hedge (List.not_mem_nil c)
    have hac : rank c < rank a := h a ha c hedge
    cases l' with
    | nil =>
      simp only [List.getLast?_singleton, Option.some.injEq] at hb
      subst hb
      exact hac
    | cons e l'' =>
      rw [List.getLast?_cons_cons] at hb
      exact (ih c b hchain hb).trans hac

/-- A rank function that strictly drops along every dependency edge
certifies acyclicity. -/
lemma acyclic_of_rank (us : List GUnit) (rank : Nat → Nat)
    (h : ∀ x, x < us.length → ∀ d ∈ depsOf us x, rank d < rank x) :
    Acyclic us := by
  rintro ⟨l, hl⟩
  cases l with
  | nil => exact hl
  | cons x rest =>
    have hchain : List.Chain (fun a b => b ∈ depsOf us a) x (rest ++ [x]) := hl
    have hlast : (rest ++ [x]).getLast? = some x := List.getLast?_concat rest
    exact absurd (rank_lt_of_chain us rank h (rest ++ [x]) x x hchain hlast)
      (lt_irrefl _)

/-- When a unit has some dependency inside `S`, `pickDep` returns one. -/
lemma pickDep_spec (us : List GUnit) (S : List Nat) (x : Nat)
    (hx : ∃ d ∈ depsOf us x, d ∈ S) :
    pickDep us S x ∈ depsOf us x ∧ pickDep us S x ∈ S := by
  obtain ⟨d, hd, hdS⟩ := hx
  have hmem : d ∈ (depsOf us x).filter (fun d => decide (d ∈ S)) :=
    List.mem_filter.mpr ⟨hd, by simpa using hdS⟩
  rcases hF : (depsOf us x).filter (fun d => decide (d ∈ S)) with _ | ⟨e, rest⟩
  · rw [hF] at hmem
    exact absurd hmem (List.not_mem_nil d)
  · have heq : pickDep us S x = e := by
      unfold pickDep
      rw [hF]
    have he : e ∈ (depsOf us x).filter (fun d => decide (d ∈ S)) := by
      rw [hF]
      exact List.mem_cons_self e rest
    obtain ⟨h1, h2⟩ := List.mem_filter.mp he
    rw [heq]
    exact ⟨h1, by simpa using h2⟩

/-- Iterating an in-dependency choice builds a dependency chain. -/
lemma chain_iterates (us : List GUnit) (g : Nat → Nat)
    (hedge : ∀ k, g (k + 1) ∈ depsOf us (g k)) :
    ∀ (m start : Nat),
      List.Chain (fun u v => v ∈ depsOf us u) (g start)
        ((List.range' (start + 1) m).map g) := by
  intro m
  induction m with
  | zero =>
    intro start
    exact List.Chain.nil
  | succ m' ih =>
    intro start
    rw [List.range'_succ]
    simp only [List.map_cons]
    exact List.Chain.cons (hedge start) (ih (start + 1))

/-- A repeated value among the iterates of an in-dependency choice closes a
dependency cycle. -/
lemma cycle_of_repeat (us : List GUnit) (g : Nat → Nat)
    (hedge : ∀ k, g (k + 1) ∈ depsOf us (g k))
    (a m : Nat) (heq : g a = g (a + m + 1)) :
    ∃ l, IsCycle us l := by
  refine ⟨g a :: (List.range' (a + 1) m).map g, ?_⟩
  show List.Chain (fun u v => v ∈ depsOf us u) (g a)
    ((List.range' (a + 1) m).map g ++ [g a])
  have h1 : (List.range' (a + 1) m).map g ++ [g a] =
      (List.range' (a + 1) (m + 1)).map g := by
    rw [List.range'_concat, List.map_append]
    have h2 : a + 1 + 1 * m = a + m + 1 := by omega
    rw [h2, heq]
    rfl
  rw [h1]
  exact chain_iterates us g hedge (m + 1) a

/-- If a non-empty pending set is stuck — every pending unit still has a
dependency inside the pending set — then the graph has a cycle. -/
lemma cycle_of_stuck (us : List GUnit) (S : List Nat) (hne : S ≠ [])
    (hstuck : ∀ x ∈ S, ∃ d ∈ depsOf us x, d ∈ S) :
    ∃ l, IsCycle us l := by
  obtain ⟨s₀, hs₀⟩ := List.exists_mem_of_ne_nil S hne
  have hgS : ∀ k, (pickDep us S)^[k] s₀ ∈ S := by
    intro k
    induction k with
    | zero => simpa using hs₀
    | succ k ihk =>
      rw [Function.iterate_succ_apply']
      exact (pickDep_spec us S _ (hstuck _ ihk)).2
  have hedge : ∀ k,
      (pickDep us S)^[k + 1] s₀ ∈ depsOf us ((pickDep us S)^[k] s₀) := by
    intro k
    rw [Function.iterate_succ_apply']
    exact (pickDep_spec us S _ (hstuck _ (hgS k))).1
  have hmaps : ∀ k ∈ Finset.range (S.length + 1),
      (pickDep us S)^[k] s₀ ∈ S.toFinset := by
    intro k _
    exact List.mem_toFinset.mpr (hgS k)
  have hcard : S.toFinset.card < (Finset.range (S.length + 1)).card := by
    rw [Finset.card_range]
    exact Nat.lt_succ_of_le (List.toFinset_card_le S)
  obtain ⟨a, -, b, -, hab, heq⟩ :=
    Finset.exists_ne_map_eq_of_card_lt_of_maps_to hcard hmaps
  rcases Nat.lt_or_ge a b with hlt | hge
  · have hm : b = a + (b - a - 1) + 1 := by omega
    refine cycle_of_repeat us (fun k => (pickDep us S)^[k] s₀) hedge
      a (b - a - 1) ?_
    show (pickDep us S)^[a] s₀ = (pickDep us S)^[a + (b - a - 1) + 1] s₀
    rw [← hm]
    exact heq
  · have hba : b < a := by omega
    have hm : a = b + (a - b - 1) + 1 := by omega
    refine cycle_of_repeat us (fun k => (pickDep us S)^[k] s₀) hedge
      b (a - b - 1) ?_
    show (pickDep us S)^[b] s₀ = (pickDep us S)^[b + (a - b - 1) + 1] s₀
    rw [← hm]
    exact heq.symm

/-- Appending a unit whose dependencies are already covered preserves the
dependency-respecting order predicate. -/
lemma depsSeen_append (us : List GUnit) (x : Nat) :
    ∀ (l seen : List Nat), depsSeen us seen (l ++ [x]) ↔
      (depsSeen us seen l ∧ ∀ d ∈ depsOf us x, d ∈ l ++ seen) := by
  intro l
  induction l with
  | nil =>
    intro seen
    simp [depsSeen]
  | cons a l' ih =>
    intro seen
    rw [List.cons_append]
    simp only [depsSeen]
    rw [ih (a :: seen)]
    constructor
    · rintro ⟨h1, h2, h3⟩
      refine ⟨⟨h1, h2⟩, fun d hd => ?_⟩
      have h4 := h3 d hd
      simp only [List.mem_append, List.mem_cons] at h4 ⊢
      tauto
    · rintro ⟨⟨h1, h2⟩, h3⟩
      refine ⟨h1, h2, fun d hd => ?_⟩
      have h4 := h3 d hd
      simp only [List.mem_append, List.mem_cons] at h4 ⊢
      tauto

/-- Main invariant lemma for the Kahn iteration: with enough fuel, pending
units all in range and every in-range unit either emitted or pending, an
acyclic closed graph resolves, the produced order respects all dependency
edges, and every in-range unit appears. -/
lemma kahnAux_ok (us : List GUnit)
    (hclosed : ∀ u ∈ us, ∀ d ∈ u.deps, d < us.length)
    (hacyclic : Acyclic us) :
    ∀ (fuel : Nat) (emitted pending : List Nat),
      pending.length ≤ fuel →
      (∀ i ∈ pending, i < us.length) →
      (∀ i, i < us.length → i ∈ emitted ∨ i ∈ pending) →
      depsSeen us [] emitted →
      ∃ order, kahnAux us fuel emitted pending = .ok order ∧
        depsSeen us [] order ∧ ∀ i, i < us.length → i ∈ order := by
  intro fuel
  induction fuel with
  | zero =>
    intro emitted pending hlen hrange hcover hgood
    have hpend : pending = [] := List.length_eq_zero.mp (Nat.le_zero.mp hlen)
    subst hpend
    refine ⟨emitted, rfl, hgood, fun i hi => ?_⟩
    rcases hcover i hi with h | h
    · exact h
    · exact absurd h (List.not_mem_nil i)
  | succ fuel ih =>
    intro emitted pending hlen hrange hcover hgood
    cases pending with
    | nil =>
      refine ⟨emitted, rfl, hgood, fun i hi => ?_⟩
      rcases hcover i hi with h | h
      · exact h
      · exact absurd h (List.not_mem_nil i)
    | cons p ps =>
      cases hfind : (p :: ps).find? (ready us emitted) with
      | none =>
        exfalso
        apply hacyclic
        apply cycle_of_stuck us (p :: ps) (List.cons_ne_nil p ps)
        intro x hx
        have hnr : ¬ ready us emitted x = true :=
          List.find?_eq_none.mp hfind x hx
        have hdex : ∃ d ∈ depsOf us x, ¬ d ∈ emitted := by
          by_contra hall
          push_neg at hall
          apply hnr
          unfold ready
          rw [List.all_eq_true]
          intro d hd
          exact decide_eq_true (hall d hd)
        obtain ⟨d, hd, hdne⟩ := hdex
        refine ⟨d, hd, ?_⟩
        have hdlt : d < us.length := depsOf_lt_of_closed us hclosed hd
        rcases hcover d hdlt with h | h
        · exact absurd h hdne
        · exact h
      | some x =>
        have hxmem : x ∈ p :: ps := List.mem_of_find?_eq_some hfind
        have hxready : ready us emitted x = true := List.find?_some hfind
        have hxdeps : ∀ d ∈ depsOf us x, d ∈ emitted := by
          intro d hd
          have := (List.all_eq_true.mp hxready) d hd
          simpa using this
        have hgood' : depsSeen us [] (emitted ++ [x]) := by
          rw [depsSeen_append]
          refine ⟨hgood, fun d hd => ?_⟩
          rw [List.append_nil]
          exact hxdeps d hd
        have hlen' : ((p :: ps).erase x).length ≤ fuel := by
          rw [List.length_erase_of_mem hxmem]
          simp only [List.length_cons] at hlen ⊢
          omega
        have hrange' : ∀ i ∈ (p :: ps).erase x, i < us.length :=
          fun i hi => hrange i (List.mem_of_mem_erase hi)
        have hcover' : ∀ i, i < us.length →
            i ∈ emitted ++ [x] ∨ i ∈ (p :: ps).erase x := by
          intro i hi
          rcases hcover i hi with h | h
          · exact Or.inl (List.mem_append_left _ h)
          · by_cases hix : i = x
            · subst hix
              exact Or.inl (List.mem_append_right _ (List.mem_singleton_self i))
            · exact Or.inr ((List.mem_erase_of_ne hix).mpr h)
        obtain ⟨order, hrun, ho1, ho2⟩ :=
          ih (emitted ++ [x]) ((p :: ps).erase x) hlen' hrange' hcover' hgood'
        refine ⟨order, ?_, ho1, ho2⟩
        have hstep : kahnAux us (fuel + 1) emitted (p :: ps) =
            kahnAux us fuel (emitted ++ [x]) ((p :: ps).erase x) := by
          simp only [kahnAux, hfind]
        rw [hstep]
        exact hrun

/-- A duplicate-free pair list passes the duplicate scan. -/
lemma hasDuplicate_eq_false (l : List (String × String)) (h : l.Nodup) :
    hasDuplicate l = false := by
  induction l with
  | nil => rfl
  | cons p rest ih =>
    rw [List.nodup_cons] at h
    unfold hasDuplicate
    rw [ih h.2, Bool.or_false]
    exact decide_eq_false h.1

/-- C7: for every registered unit set satisfying the closure invariant,
with no duplicate `(namespace, symbol)` pair and no dependency cycle,
`resolve()` succeeds and returns a build order in which each unit appears
after all units it depends on, containing every registered unit; and the
manifest's unit set — tuners depending on their kernel main units and
`ConvGemmOps` depending on both tuners — is such a set and resolves
successfully to a dependency-respecting order. -/
theorem resolve_succeeds_on_acyclic_nodup :
    (∀ us : List GUnit,
      (∀ u ∈ us, ∀ d ∈ u.deps, d < us.length) →
      (symbolPairs us).Nodup →
      Acyclic us →
      ∃ order, resolve us = .ok order ∧
        depsSeen us [] order ∧
        ∀ i, i < us.length → i ∈ order) ∧
    resolve manifestGUnits = .ok manifestOrder ∧
    depsSeen manifestGUnits [] manifestOrder ∧
    Acyclic manifestGUnits ∧
    (symbolPairs manifestGUnits).Nodup := by
  refine ⟨?_, rfl, ?_, ?_, ?_⟩
  · intro us hclosed hnodup hacyclic
    have hdup : hasDuplicate (symbolPairs us) = false :=
      hasDuplicate_eq_false _ hnodup
    obtain ⟨order, hrun, h1, h2⟩ := kahnAux_ok us hclosed hacyclic us.length []
      (List.range us.length)
      (by rw [List.length_range])
      (fun i hi => List.mem_range.mp hi)
      (fun i hi => Or.inr (List.mem_range.mpr hi))
      trivial
    refine ⟨order, ?_, h1, h2⟩
    unfold resolve
    rw [hdup]
    simpa using hrun
  · simp [depsSeen, depsOf, manifestGUnits, manifestOrder]
  · exact acyclic_of_rank manifestGUnits manifestRank (by decide)
  · decide

/-- Witness for C7's universally quantified part: the two-unit example set
from the spec (provider `ns.a`/`foo` and dependent `ns.b`/`bar`) is closed,
duplicate-free and acyclic, so it resolves to a dependency-respecting
complete order. -/
theorem resolve_succeeds_witness :
    ∃ order, resolve wUnits = .ok order ∧ depsSeen wUnits [] order ∧
      ∀ i, i < wUnits.length → i ∈ order :=
  resolve_succeeds_on_acyclic_nodup.1 wUnits (by decide) (by decide)
    (acyclic_of_rank wUnits (fun x => x) (by decide))

end Spconv
